import Mathlib

deriving instance DecidableEq for Except

/-!
Verification development for CFPiHole.

Shallow embedding of the repository's Python sources:
`main.py` (domain extraction, reconciliation decision, list replacement),
`tld.py` (TLD policy regex construction), `cloudflare.py` /
`cloudflare_api.py` (traffic-expression construction) and
`cloudflare_config.py` (policy create/delete helpers).

Python strings are Lean `String`s.  The `str` methods the sources use
(`splitlines`, `split`, `strip`, `rstrip`, `startswith`, `endswith`, `lower`,
`replace`, `lstrip`, `in`) are modelled structurally over `List Char` so that
every definition evaluates inside the kernel; `list(set(xs))` is modelled as
`List.dedup` (same members, exact string equality, first-occurrence order);
fallible steps return `Except`/`Option`.
-/

namespace CFPiHole

/-! ### Python string primitives, structurally over `List Char` -/

/-- Whether `pat` is a prefix of `s` (Python `startswith`). -/
def chIsPrefix : List Char → List Char → Bool
  | [], _ => true
  | _ :: _, [] => false
  | p :: ps, c :: cs => p = c && chIsPrefix ps cs

/-- Whether `pat` is a suffix of `s` (Python `endswith`). -/
def chIsSuffix (pat s : List Char) : Bool := chIsPrefix pat.reverse s.reverse

/-- Whether `pat` occurs inside `s` (Python `pat in s`). -/
def chIsInfix (pat : List Char) : List Char → Bool
  | [] => chIsPrefix pat []
  | c :: cs => chIsPrefix pat (c :: cs) || chIsInfix pat cs

/-- Split on the characters satisfying `p`, keeping empty fields. -/
def chSplitP (p : Char → Bool) : List Char → List (List Char)
  | [] => [[]]
  | c :: cs =>
    match chSplitP p cs with
    | [] => [[c]]
    | g :: gs => if p c then [] :: g :: gs else (c :: g) :: gs

/-- Split on a single separator character, keeping empty fields. -/
def chSplitOn (sep : Char) (l : List Char) : List (List Char) :=
  chSplitP (fun c => c = sep) l

/-- Python `str.rstrip()`: drop trailing whitespace. -/
def pyRstrip (l : List Char) : List Char :=
  (l.reverse.dropWhile Char.isWhitespace).reverse

/-- Python `str.strip()`: drop leading and trailing whitespace. -/
def pyStrip (l : List Char) : List Char :=
  pyRstrip (l.dropWhile Char.isWhitespace)

/-- Python `str.split()` with no argument: split on whitespace runs, dropping
empty fields. -/
def pySplit (l : List Char) : List (List Char) :=
  (chSplitP Char.isWhitespace l).filter (fun w => w ≠ [])

/-- Replace every occurrence of the character `c` by `rep`
(Python `str.replace` for a one-character pattern). -/
def chReplace (c : Char) (rep : List Char) : List Char → List Char
  | [] => []
  | d :: ds => if d = c then rep ++ chReplace c rep ds else d :: chReplace c rep ds

/-- Python `str.splitlines()`, modelled as splitting on `'\n'`.  (The extra
empty final piece produced for a trailing newline is skipped by the callers'
blank-line rules.) -/
def splitlines (data : String) : List String :=
  (chSplitOn '\n' data.data).map String.mk

/-- Python `"sep".join(xs)`. -/
def strJoin (sep : String) : List String → String
  | [] => ""
  | [x] => x
  | x :: y :: xs => x ++ sep ++ strJoin sep (y :: xs)

/-- Lexicographic comparison of strings by code point, the order Python
`sorted` uses on `str`. -/
def chLe : List Char → List Char → Bool
  | [], _ => true
  | _ :: _, [] => false
  | a :: as, b :: bs => if a < b then true else if b < a then false else chLe as bs

/-- `chLe` lifted to `String`. -/
def strLe (a b : String) : Bool := chLe a.data b.data

/-! ### Domain Set Builder (`main.py` `App.convert_to_domain_list`) -/

/-- The loopback markers `main.py` line 234 scans for when deciding whether a
downloaded file is in hosts format. -/
def hostMarkers : List String := ["localhost ", "127.0.0.1 ", "::1 ", "0.0.0.0 "]

/-- `main.py` lines 233-235: `is_hosts_file` is true when any loopback marker
occurs anywhere in the file contents. -/
def isHostsFile (data : String) : Bool :=
  hostMarkers.any (fun ip => chIsInfix ip.data data.data)

/-- One iteration of the extraction loop in `main.py`
`App.convert_to_domain_list` (lines 239-266): skip comments and blank lines;
when `tldlist` is non-empty, skip lines that do not end with one of its
entries; in hosts format take the second whitespace-separated token (skipping
lines with fewer than two tokens and the literal `localhost`), otherwise the
whole line with trailing whitespace removed; finally skip whitelisted
domains.  Returns the domain appended for this line, if any. -/
def processLine (tldlist whitelist : List String) (hosts : Bool) (line : String) :
    Option String :=
  if chIsPrefix "#".data line.data ∨ chIsPrefix ";".data line.data ∨
      pyStrip line.data = [] then none
  else if tldlist ≠ [] ∧ ¬ tldlist.any (fun t => chIsSuffix t.data line.data) then none
  else
    let domain? :=
      if hosts then
        match pySplit line.data with
        | _ :: p :: _ =>
          let d := String.mk (pyRstrip p)
          if d = "localhost" then none else some d
        | _ => none
      else some (String.mk (pyRstrip line.data))
    match domain? with
    | none => none
    | some d => if d ∈ whitelist then none else some d

/-- `main.py` `App.convert_to_domain_list` (lines 229-270): the loop appending
domains is the `filterMap` of `processLine` over the file's lines. -/
def convert_to_domain_list (tldlist whitelist : List String) (data : String) :
    List String :=
  (splitlines data).filterMap (processLine tldlist whitelist (isHostsFile data))

/-- `main.py` `App.run` lines 70-82: domains accumulated over all configured
source files, then `unique_domains = list(set(all_domains))`. -/
def unique_domains (tldlist whitelist : List String) (texts : List String) :
    List String :=
  ((texts.map (convert_to_domain_list tldlist whitelist)).flatten).dedup

/-! ### Chunked List Synchronizer (`main.py` `App.chunk_list`) -/

/-- Structural engine for `chunk_list`: `fuel` bounds the number of slices,
which never exceeds the input length. -/
def chunkListFuel {α : Type*} : Nat → List α → Nat → List (List α)
  | 0, _, _ => []
  | _ + 1, [], _ => []
  | fuel + 1, a :: l, n =>
    if n = 0 then []
    else (a :: l).take n :: chunkListFuel fuel ((a :: l).drop n) n

/-- `main.py` `App.chunk_list` (lines 272-274): successive slices
`_list[i : i + n]` for `i = 0, n, 2n, ...`.  (Python raises `ValueError` on
step `n = 0`; modelled as producing no chunks, and never used that way.) -/
def chunk_list {α : Type*} (l : List α) (n : Nat) : List (List α) :=
  chunkListFuel l.length l n

/-- `math.ceil(a / b)` on non-negative integers, as in `main.py` line 83. -/
def ceil_div (a b : Nat) : Nat := (a + b - 1) / b

/-! ### Remote state and the Reconciliation Planner (`main.py` `App.run`) -/

/-- A remote Cloudflare list as the engine reads it: id, name, item count. -/
structure RemoteList where
  id : String
  name : String
  count : Nat
deriving DecidableEq

/-- A remote gateway policy: id and name. -/
structure RemotePolicy where
  id : String
  name : String
deriving DecidableEq

/-- `cloudflare.py` `get_lists` (lines 37-43): the lists whose name starts
with the prefix, paired with all lists. -/
def cloudflare_get_lists (allLists : List RemoteList) (pfx : String) :
    List RemoteList × List RemoteList :=
  (allLists.filter (fun l => chIsPrefix pfx.data l.name.data), allLists)

/-- `cloudflare.py` / `cloudflare_api.py` `get_firewall_policies`: the rules
whose name starts with the prefix. -/
def cloudflare_get_firewall_policies (rules : List RemotePolicy) (pfx : String) :
    List RemotePolicy :=
  rules.filter (fun r => chIsPrefix pfx.data r.name.data)

/-- `sum([l["count"] for l in cf_lists])`, `main.py` line 107. -/
def sumCounts (ls : List RemoteList) : Nat := (ls.map (fun l => l.count)).sum

/-- Outcome of the decision chain in `main.py` `App.run` lines 106-116. -/
inductive Plan
  | skip
  | quotaAbort
  | fullReplace
deriving DecidableEq

/-- `main.py` `App.run` lines 106-116: skip when the unique-domain count
equals the summed counts of the matched lists; otherwise abort when the
projected list total exceeds 300; otherwise full replace. -/
def runDecision (uniqueCount : Nat) (cfLists : List RemoteList) (diffCfLists : Nat) :
    Plan :=
  if uniqueCount = sumCounts cfLists then .skip
  else if ceil_div uniqueCount 1000 + diffCfLists > 300 then .quotaAbort
  else .fullReplace

/-- A remote mutation issued by the engine. -/
inductive RemoteAction
  | deletePolicy (policyId : String)
  | deleteList (listId : String)
  | createList (listName : String) (items : List String)
  | createPolicy (policyName : String) (listIds : List String)
  | updatePolicy (policyName : String) (policyId : String) (listIds : List String)
deriving DecidableEq

/-- How a run of `App.run` ends. -/
inductive RunOutcome
  | done
  | stopped
  | attrError (attrName : String)
  | integrityError
deriving DecidableEq

/-- The names bound at module level in `tld.py`: the four imports and the
class `App` (the `app` variable only exists when the file runs as a script,
not when `main.py` imports it).  In particular `tld.py` defines neither
`create_tld_policy` nor `delete_tld_policy`. -/
def tldModuleAttrs : List String := ["os", "logging", "cloudflare", "configparser", "App"]

/-- Python attribute lookup on a module: succeeds exactly when the name is
among the module's bindings. -/
def pythonHasAttr (attrs : List String) (a : String) : Bool := attrs.contains a

/-- `main.py` lines 142-152: one `create_list` call per chunk, named
`f"{name_prefix} {len(cf_lists) + 1}"` where `created` is the running number
of lists created so far. -/
def createChunkActionsFrom (pfx : String) (created : Nat) :
    List (List String) → List RemoteAction
  | [] => []
  | c :: cs =>
    RemoteAction.createList (pfx ++ " " ++ toString (created + 1)) c ::
      createChunkActionsFrom pfx (created + 1) cs

/-- The list-creation phase of `main.py` `App.run`, starting from zero
created lists. -/
def createChunkActions (pfx : String) (chunks : List (List String)) :
    List RemoteAction :=
  createChunkActionsFrom pfx 0 chunks

/-- Whether an action creates or updates a gateway policy. -/
def isPolicyWrite : RemoteAction → Bool
  | .createPolicy _ _ => true
  | .updatePolicy _ _ _ => true
  | _ => false

/-- `main.py` `App.run` from line 82 on, as the sequence of remote mutations
it issues together with how it ends.  Inputs: the accumulated raw domains,
the remote lists, the remote rules at the first policy fetch, the rules at
the re-fetch after list creation, and the ids the create-list calls return.
In the full-replace branch the run deletes the first matched policy when at
least one matches (line 120), deletes the matched lists, creates one list per
1000-domain chunk, and then calls `tld.create_tld_policy` (line 155) — an
attribute lookup on the `tld` module that fails in this snapshot, so the
tail (policy create/update, lines 158-184) is unreachable. -/
def runApp (pfx : String) (allDomains : List String) (allLists : List RemoteList)
    (rules cfPoliciesAfter : List RemotePolicy) (newListIds : List String) :
    List RemoteAction × RunOutcome :=
  let uniqueDomains := allDomains.dedup
  let cfLists := (cloudflare_get_lists allLists pfx).1
  let diffCfLists := allLists.length - cfLists.length
  match runDecision uniqueDomains.length cfLists diffCfLists with
  | .skip => ([], .stopped)
  | .quotaAbort => ([], .stopped)
  | .fullReplace =>
    let cfPolicies := cloudflare_get_firewall_policies rules pfx
    let policyDeletes :=
      match cfPolicies with
      | [] => []
      | p :: _ => [RemoteAction.deletePolicy p.id]
    let listDeletes := cfLists.map (fun l => RemoteAction.deleteList l.id)
    let listCreates := createChunkActions pfx (chunk_list uniqueDomains 1000)
    if pythonHasAttr tldModuleAttrs "create_tld_policy" then
      match cfPoliciesAfter with
      | [] => (policyDeletes ++ listDeletes ++ listCreates ++
                [RemoteAction.createPolicy pfx newListIds], RunOutcome.done)
      | [p] => (policyDeletes ++ listDeletes ++ listCreates ++
                [RemoteAction.updatePolicy pfx p.id newListIds], RunOutcome.done)
      | _ => (policyDeletes ++ listDeletes ++ listCreates, RunOutcome.integrityError)
    else
      (policyDeletes ++ listDeletes ++ listCreates,
        RunOutcome.attrError "create_tld_policy")

/-- `main.py` `App.load_tldlist` (lines 33-56): read the TLD file, keep the
non-blank stripped lines; when the file exists but holds none, call
`tld.delete_tld_policy()` — an attribute lookup on the `tld` module. -/
def load_tldlist (fileExists : Bool) (contents : String) :
    Except String (List String) :=
  if fileExists then
    let tldList :=
      ((splitlines contents).map (fun s => String.mk (pyStrip s.data))).filter
        (fun s => s ≠ "")
    if tldList.isEmpty then
      if pythonHasAttr tldModuleAttrs "delete_tld_policy" then Except.ok []
      else Except.error "delete_tld_policy"
    else Except.ok tldList
  else Except.ok []

/-- `cloudflare_config.py` `delete_firewall_policy` (lines 50-63): fetch the
matching policies; none → nothing to do; exactly one → delete it; otherwise
raise before issuing any delete. -/
def cfg_delete_firewall_policy (rules : List RemotePolicy) (pfx : String) :
    List RemoteAction × Except String Unit :=
  match cloudflare_get_firewall_policies rules pfx with
  | [] => ([], Except.ok ())
  | [p] => ([RemoteAction.deletePolicy p.id], Except.ok ())
  | _ => ([], Except.error "More than one firewall policy found")

/-! ### Policy Applier traffic expressions -/

/-- `cloudflare.py` `create_gateway_policy` / `update_gateway_policy`
(lines 136, 146) and `cloudflare_api.py` line 98: the domain-list traffic
expression, `"or".join` of one term per list id. -/
def gateway_policy_traffic (listIds : List String) : String :=
  strJoin "or" (listIds.map (fun l => "any(dns.domains[*] in $" ++ l ++ ")"))

/-- `cloudflare.py` `create_gateway_policy_tld` / `update_gateway_policy_tld`
(lines 156, 166): the TLD traffic expression wrapping a given regex. -/
def gateway_policy_tld_traffic (regexTld : String) : String :=
  "not(any(dns.domains[*] matches \"" ++ regexTld ++ "\"))"

/-- `tld.py` `App.run` (lines 29-33): the TLD regex built from the raw file
contents — replace every dot with `|`, strip leading `|`s, remove newlines,
wrap in `[.](...)$`.  No sorting, no deduplication. -/
def tld_regex (tldFileContents : String) : String :=
  "[.](" ++
    String.mk (chReplace '\n' []
      (((chReplace '.' ['|'] tldFileContents.data)).dropWhile (fun c => c = '|')))
    ++ ")$"

/-- `cloudflare_config.py` line 32: `sorted(set(tld.replace(".", "") ...))` —
dot-stripped, deduplicated, sorted TLDs. -/
def cfg_unique_tlds (listIds : List String) : List String :=
  List.insertionSort (fun a b => strLe a b = true)
    ((listIds.map (fun t => String.mk (chReplace '.' [] t.data))).dedup)

/-- `cloudflare_config.py` line 33: the raw f-string `[.](|{...})$`, whose
group starts with an empty alternative before the joined TLDs. -/
def cfg_tld_regex (listIds : List String) : String :=
  "[.](|" ++ strJoin "|" (cfg_unique_tlds listIds) ++ ")$"

/-- `cloudflare_api.py` `create_gateway_policy` (lines 96-101) when called
with a regex and no list ids: the traffic expression
`(any(dns.domains[*] matches "<regex>"))` — parenthesised, with no `not`. -/
def api_tld_traffic (regexTld : String) : String :=
  "(any(dns.domains[*] matches \"" ++ regexTld ++ "\"))"

/-! ### Spec-side comparators, declared only to state the claims -/

/-- Final label of a domain: the text after the last dot. -/
def lastLabel (d : String) : String := String.mk ((chSplitOn '.' d.data).getLastD [])

/-- Spec-side comparator, not present in the source: the normalization the
spec claims for emitted domains — lower-case, then strip one trailing dot.
Declared only so the claim can be stated and compared with the code. -/
def spec_normalize (d : String) : String :=
  let low := d.data.map Char.toLower
  if chIsSuffix ".".data low then String.mk low.dropLast else String.mk low

/-! ### Helper lemmas about the chunker -/

theorem chunkListFuel_nil {α : Type*} (fuel n : Nat) :
    chunkListFuel (α := α) fuel [] n = [] := by
  cases fuel <;> rfl

theorem chunkListFuel_congr {α : Type*} (n : Nat) (hn : n ≠ 0) :
    ∀ (f1 f2 : Nat) (l : List α), l.length ≤ f1 → l.length ≤ f2 →
      chunkListFuel f1 l n = chunkListFuel f2 l n := by
  intro f1
  induction f1 with
  | zero =>
    intro f2 l h1 _
    obtain rfl : l = [] := List.eq_nil_of_length_eq_zero (Nat.le_zero.mp h1)
    rw [chunkListFuel_nil, chunkListFuel_nil]
  | succ k ih =>
    intro f2 l h1 h2
    cases l with
    | nil => rw [chunkListFuel_nil, chunkListFuel_nil]
    | cons a as =>
      cases f2 with
      | zero => simp at h2
      | succ m =>
        simp only [chunkListFuel, if_neg hn]
        have hd : ((a :: as).drop n).length = as.length + 1 - n := by
          simp [List.length_drop]
        have h1' : ((a :: as).drop n).length ≤ k := by
          rw [hd]; simp at h1; omega
        have h2' : ((a :: as).drop n).length ≤ m := by
          rw [hd]; simp at h2; omega
        rw [ih m _ h1' h2']

theorem chunk_list_cons {α : Type*} (n : Nat) (hn : n ≠ 0) (l : List α) (hl : l ≠ []) :
    chunk_list l n = l.take n :: chunk_list (l.drop n) n := by
  cases l with
  | nil => exact absurd rfl hl
  | cons a as =>
    show chunkListFuel (a :: as).length (a :: as) n = _
    simp only [List.length_cons, chunkListFuel, if_neg hn]
    congr 1
    exact chunkListFuel_congr n hn as.length ((a :: as).drop n).length _
      (by simp [List.length_drop]; omega) (le_refl _)

theorem chunk_list_flatten {α : Type*} (n : Nat) (hn : n ≠ 0) (l : List α) :
    (chunk_list l n).flatten = l := by
  have key : ∀ (fuel : Nat) (l : List α), l.length ≤ fuel →
      (chunkListFuel fuel l n).flatten = l := by
    intro fuel
    induction fuel with
    | zero =>
      intro l h
      obtain rfl : l = [] := List.eq_nil_of_length_eq_zero (Nat.le_zero.mp h)
      rfl
    | succ k ih =>
      intro l h
      cases l with
      | nil => rfl
      | cons a as =>
        simp only [chunkListFuel, if_neg hn, List.flatten_cons]
        rw [ih _ (by simp [List.length_drop]; simp at h; omega)]
        exact List.take_append_drop n (a :: as)
  exact key l.length l (le_refl _)

theorem chunk_list_length {α : Type*} (n : Nat) (hn : n ≠ 0) (l : List α) :
    (chunk_list l n).length = (l.length + n - 1) / n := by
  have key : ∀ (fuel : Nat) (l : List α), l.length ≤ fuel →
      (chunkListFuel fuel l n).length = (l.length + n - 1) / n := by
    intro fuel
    induction fuel with
    | zero =>
      intro l h
      obtain rfl : l = [] := List.eq_nil_of_length_eq_zero (Nat.le_zero.mp h)
      simp [chunkListFuel_nil]
      rw [Nat.div_eq_of_lt (by omega)]
    | succ k ih =>
      intro l h
      cases l with
      | nil =>
        simp [chunkListFuel_nil]
        rw [Nat.div_eq_of_lt (by omega)]
      | cons a as =>
        simp only [chunkListFuel, if_neg hn, List.length_cons]
        rw [ih _ (by simp [List.length_drop]; simp at h; omega)]
        rw [List.length_drop, List.length_cons]
        rcases Nat.lt_or_ge (as.length + 1) n with hc | hc
        · have e1 : as.length + 1 - n + n - 1 = n - 1 := by omega
          rw [e1, Nat.div_eq_of_lt (by omega)]
          have e2 : (as.length + 1 + n - 1) / n = 1 :=
            Nat.div_eq_of_lt_le (by omega) (by omega)
          rw [e2]
        · have e1 : as.length + 1 - n + n - 1 = as.length := by omega
          have e2 : as.length + 1 + n - 1 = as.length + n := by omega
          rw [e1, e2, Nat.add_div_right _ (Nat.pos_of_ne_zero hn)]
  exact key l.length l (le_refl _)

theorem chunk_list_sizes {α : Type*} (n : Nat) (l : List α) :
    ∀ c ∈ chunk_list l n, c.length ≤ n := by
  have key : ∀ (fuel : Nat) (l : List α), l.length ≤ fuel →
      ∀ c ∈ chunkListFuel fuel l n, c.length ≤ n := by
    intro fuel
    induction fuel with
    | zero =>
      intro l h c hc
      obtain rfl : l = [] := List.eq_nil_of_length_eq_zero (Nat.le_zero.mp h)
      rw [chunkListFuel_nil] at hc
      exact absurd hc (by simp)
    | succ k ih =>
      intro l h c hc
      cases l with
      | nil => rw [chunkListFuel_nil] at hc; exact absurd hc (by simp)
      | cons a as =>
        by_cases hn : n = 0
        · simp [chunkListFuel, hn] at hc
        · simp only [chunkListFuel, if_neg hn, List.mem_cons] at hc
          rcases hc with rfl | hc
          · rw [List.length_take]; exact min_le_left _ _
          · exact ih _ (by simp [List.length_drop]; simp at h; omega) c hc
  exact key l.length l (le_refl _)

/-! ### Helper lemmas about the run decision and the full-replace trace -/

theorem runDecision_skip_eq (uniqueCount : Nat) (cfLists : List RemoteList)
    (diffCfLists : Nat) (h : uniqueCount = sumCounts cfLists) :
    runDecision uniqueCount cfLists diffCfLists = Plan.skip := by
  simp [runDecision, h]

theorem runDecision_quota_eq (uniqueCount : Nat) (cfLists : List RemoteList)
    (diffCfLists : Nat) (h1 : uniqueCount ≠ sumCounts cfLists)
    (h2 : 300 < ceil_div uniqueCount 1000 + diffCfLists) :
    runDecision uniqueCount cfLists diffCfLists = Plan.quotaAbort := by
  simp only [runDecision, if_neg h1, gt_iff_lt, if_pos h2]

theorem runDecision_full_eq (uniqueCount : Nat) (cfLists : List RemoteList)
    (diffCfLists : Nat) (h1 : uniqueCount ≠ sumCounts cfLists)
    (h2 : ceil_div uniqueCount 1000 + diffCfLists ≤ 300) :
    runDecision uniqueCount cfLists diffCfLists = Plan.fullReplace := by
  simp only [runDecision, if_neg h1, gt_iff_lt, if_neg (Nat.not_lt.mpr h2)]

theorem runApp_skip_eq (pfx : String) (allDomains : List String)
    (allLists : List RemoteList) (rules cfPoliciesAfter : List RemotePolicy)
    (newListIds : List String)
    (h : allDomains.dedup.length = sumCounts (cloudflare_get_lists allLists pfx).1) :
    runApp pfx allDomains allLists rules cfPoliciesAfter newListIds =
      ([], RunOutcome.stopped) := by
  simp only [runApp]
  rw [runDecision_skip_eq _ _ _ h]

theorem runApp_quota_eq (pfx : String) (allDomains : List String)
    (allLists : List RemoteList) (rules cfPoliciesAfter : List RemotePolicy)
    (newListIds : List String)
    (h1 : allDomains.dedup.length ≠ sumCounts (cloudflare_get_lists allLists pfx).1)
    (h2 : 300 < ceil_div allDomains.dedup.length 1000 +
      (allLists.length - (cloudflare_get_lists allLists pfx).1.length)) :
    runApp pfx allDomains allLists rules cfPoliciesAfter newListIds =
      ([], RunOutcome.stopped) := by
  simp only [runApp]
  rw [runDecision_quota_eq _ _ _ h1 h2]

theorem runApp_fullReplace_eq (pfx : String) (allDomains : List String)
    (allLists : List RemoteList) (rules cfPoliciesAfter : List RemotePolicy)
    (newListIds : List String)
    (h1 : allDomains.dedup.length ≠ sumCounts (cloudflare_get_lists allLists pfx).1)
    (h2 : ceil_div allDomains.dedup.length 1000 +
      (allLists.length - (cloudflare_get_lists allLists pfx).1.length) ≤ 300) :
    runApp pfx allDomains allLists rules cfPoliciesAfter newListIds =
      ((match cloudflare_get_firewall_policies rules pfx with
          | [] => []
          | p :: _ => [RemoteAction.deletePolicy p.id]) ++
        (cloudflare_get_lists allLists pfx).1.map (fun l => RemoteAction.deleteList l.id) ++
        createChunkActions pfx (chunk_list allDomains.dedup 1000),
        RunOutcome.attrError "create_tld_policy") := by
  simp only [runApp]
  rw [runDecision_full_eq _ _ _ h1 h2]
  rw [if_neg (by decide : ¬ (pythonHasAttr tldModuleAttrs "create_tld_policy" = true))]

theorem createChunkActionsFrom_no_policy_write (pfx : String) :
    ∀ (chunks : List (List String)) (created : Nat)
      (a : RemoteAction), a ∈ createChunkActionsFrom pfx created chunks →
      isPolicyWrite a = false := by
  intro chunks
  induction chunks with
  | nil => intro created a ha; exact absurd ha (by simp [createChunkActionsFrom])
  | cons c cs ih =>
    intro created a ha
    simp only [createChunkActionsFrom, List.mem_cons] at ha
    rcases ha with rfl | ha
    · rfl
    · exact ih (created + 1) a ha

/-! ### Helper lemmas about the lexicographic string order -/

theorem chLe_total : ∀ a b : List Char, chLe a b = true ∨ chLe b a = true := by
  intro a
  induction a with
  | nil => intro b; left; rfl
  | cons x xs ih =>
    intro b
    cases b with
    | nil => right; rfl
    | cons y ys =>
      rcases lt_trichotomy x y with h | rfl | h
      · left; simp [chLe, h]
      · simp only [chLe, lt_irrefl, if_false]
        exact ih ys
      · right; simp [chLe, h]

theorem chLe_trans :
    ∀ a b c : List Char, chLe a b = true → chLe b c = true → chLe a c = true := by
  intro a
  induction a with
  | nil => intro b c _ _; rfl
  | cons x xs ih =>
    intro b c hab hbc
    cases b with
    | nil => simp [chLe] at hab
    | cons y ys =>
      cases c with
      | nil => simp [chLe] at hbc
      | cons z zs =>
        simp only [chLe] at hab hbc ⊢
        by_cases hxy : x < y
        · by_cases hyz : y < z
          · rw [if_pos (lt_trans hxy hyz)]
          · by_cases hzy : z < y
            · rw [if_neg hyz, if_pos hzy] at hbc
              exact absurd hbc (by simp)
            · obtain rfl : y = z := le_antisymm (not_lt.mp hzy) (not_lt.mp hyz)
              rw [if_pos hxy]
        · by_cases hyx : y < x
          · rw [if_neg hxy, if_pos hyx] at hab
            exact absurd hab (by simp)
          · obtain rfl : x = y := le_antisymm (not_lt.mp hyx) (not_lt.mp hxy)
            rw [if_neg hxy, if_neg hyx] at hab
            by_cases hxz : x < z
            · rw [if_pos hxz]
            · by_cases hzx : z < x
              · rw [if_neg hxz, if_pos hzx] at hbc
                exact absurd hbc (by simp)
              · rw [if_neg hxz, if_neg hzx] at hbc ⊢
                exact ih ys zs hab hbc

instance : IsTotal String (fun a b => strLe a b = true) :=
  ⟨fun a b => chLe_total a.data b.data⟩

instance : IsTrans String (fun a b => strLe a b = true) :=
  ⟨fun a b c => chLe_trans a.data b.data c.data⟩

theorem cfg_unique_tlds_sorted (listIds : List String) :
    (cfg_unique_tlds listIds).Pairwise (fun a b => strLe a b = true) :=
  List.sorted_insertionSort (fun a b => strLe a b = true) _

theorem cfg_unique_tlds_nodup (listIds : List String) :
    (cfg_unique_tlds listIds).Nodup :=
  (List.perm_insertionSort (fun a b => strLe a b = true) _).symm.nodup
    (List.nodup_dedup _)

/-! ### Claim theorems -/

/-- C1 is false of the code: with the non-empty `blockedTlds` set `["com"]`
and the input text `"ads.example.com"`, `convert_to_domain_list` emits
`"ads.example.com"`, whose final label `"com"` is in the set. -/
theorem c1_counterexample :
    (["com"] : List String) ≠ []
    ∧ "ads.example.com" ∈ convert_to_domain_list ["com"] [] "ads.example.com"
    ∧ lastLabel "ads.example.com" = "com"
    ∧ "com" ∈ (["com"] : List String) := by decide

/-- C1 (amended): the filter is inverted relative to the claim — for every
non-empty `tldlist`, every domain `convert_to_domain_list` emits comes from
an input line that ends (as a string suffix) with some element of `tldlist`;
lines not ending with an element are the ones skipped. -/
theorem c1_amended_tld_filter_inverted (tldlist whitelist : List String)
    (data : String) (hne : tldlist ≠ []) :
    ∀ d ∈ convert_to_domain_list tldlist whitelist data,
      ∃ line ∈ splitlines data,
        tldlist.any (fun t => chIsSuffix t.data line.data) = true ∧
        processLine tldlist whitelist (isHostsFile data) line = some d := by
  intro d hd
  simp only [convert_to_domain_list] at hd
  obtain ⟨line, hline, hproc⟩ := List.mem_filterMap.mp hd
  refine ⟨line, hline, ?_, hproc⟩
  simp only [processLine] at hproc
  split at hproc
  · exact absurd hproc (by simp)
  · split at hproc
    · exact absurd hproc (by simp)
    · rename_i hcond
      push_neg at hcond
      simpa using hcond hne

/-- Witness for C1 (amended) at `tldlist = ["com"]`,
`data = "ads.example.com"`, `d = "ads.example.com"`. -/
theorem c1_amended_witness :
    ∃ line ∈ splitlines "ads.example.com",
      (["com"] : List String).any (fun t => chIsSuffix t.data line.data) = true ∧
      processLine ["com"] [] (isHostsFile "ads.example.com") line =
        some "ads.example.com" :=
  c1_amended_tld_filter_inverted ["com"] [] "ads.example.com" (by decide)
    "ads.example.com" (by decide)

/-- C2: for every input list and chunk size `n > 0`, `chunk_list` yields
exactly `ceil(N/n)` chunks of size at most `n` whose concatenation is the
input; when the input has no duplicates the chunks are pairwise disjoint, so
they partition the input set exactly. -/
theorem c2_chunk_list_spec {α : Type*} (l : List α) (n : Nat) (hn : 0 < n) :
    (chunk_list l n).length = ceil_div l.length n
    ∧ (∀ c ∈ chunk_list l n, c.length ≤ n)
    ∧ (chunk_list l n).flatten = l
    ∧ (l.Nodup → (chunk_list l n).Pairwise List.Disjoint) := by
  have hn' : n ≠ 0 := Nat.pos_iff_ne_zero.mp hn
  refine ⟨chunk_list_length n hn' l, chunk_list_sizes n l,
    chunk_list_flatten n hn' l, ?_⟩
  intro h
  have hj : (chunk_list l n).flatten.Nodup := by
    rw [chunk_list_flatten n hn' l]; exact h
  exact (List.nodup_flatten.mp hj).2

/-- Witness for C2 at `l = ["a","b","c"]`, `n = 2`. -/
theorem c2_witness :
    (chunk_list (["a", "b", "c"] : List String) 2).length =
      ceil_div (["a", "b", "c"] : List String).length 2
    ∧ (∀ c ∈ chunk_list (["a", "b", "c"] : List String) 2, c.length ≤ 2)
    ∧ (chunk_list (["a", "b", "c"] : List String) 2).flatten = ["a", "b", "c"]
    ∧ ((["a", "b", "c"] : List String).Nodup →
        (chunk_list (["a", "b", "c"] : List String) 2).Pairwise List.Disjoint) :=
  c2_chunk_list_spec ["a", "b", "c"] 2 (by decide)

/-- C3 is false of the code: on the input text `"A.com\na.com"` the pipeline
(extraction followed by `list(set(...))`) keeps both `"A.com"` and
`"a.com"`, two distinct entries that are equal after lower-casing; and the
emitted `"A.com"` is not lower-cased. -/
theorem c3_counterexample :
    "A.com" ∈ unique_domains [] [] ["A.com\na.com"]
    ∧ "a.com" ∈ unique_domains [] [] ["A.com\na.com"]
    ∧ "A.com" ≠ "a.com"
    ∧ spec_normalize "A.com" = spec_normalize "a.com"
    ∧ spec_normalize "A.com" ≠ "A.com" := by decide

/-- C3 (amended): deduplication is by exact string equality only — the
pipeline output has no two equal entries, and every output entry was emitted
verbatim by `convert_to_domain_list` for some source text (no lower-casing,
no trailing-dot stripping). -/
theorem c3_amended_exact_dedup (tldlist whitelist texts : List String) :
    (unique_domains tldlist whitelist texts).Nodup
    ∧ ∀ d ∈ unique_domains tldlist whitelist texts,
        ∃ t ∈ texts, d ∈ convert_to_domain_list tldlist whitelist t := by
  constructor
  · exact List.nodup_dedup _
  · intro d hd
    rw [unique_domains, List.mem_dedup] at hd
    obtain ⟨l, hl, hdl⟩ := List.mem_flatten.mp hd
    obtain ⟨t, ht, rfl⟩ := List.mem_map.mp hl
    exact ⟨t, ht, hdl⟩

/-- C4: when the skip condition fails and
`ceil(desired/1000) + (totalRemoteListCount - matchedListCount) > 300`, the
run decides `quotaAbort` and issues no remote mutation at all. -/
theorem c4_quota_abort (pfx : String) (allDomains : List String)
    (allLists : List RemoteList) (rules cfPoliciesAfter : List RemotePolicy)
    (newListIds : List String)
    (h1 : allDomains.dedup.length ≠ sumCounts (cloudflare_get_lists allLists pfx).1)
    (h2 : 300 < ceil_div allDomains.dedup.length 1000 +
      (allLists.length - (cloudflare_get_lists allLists pfx).1.length)) :
    runDecision allDomains.dedup.length (cloudflare_get_lists allLists pfx).1
      (allLists.length - (cloudflare_get_lists allLists pfx).1.length) = Plan.quotaAbort
    ∧ runApp pfx allDomains allLists rules cfPoliciesAfter newListIds =
      ([], RunOutcome.stopped) :=
  ⟨runDecision_quota_eq _ _ _ h1 h2,
    runApp_quota_eq pfx allDomains allLists rules cfPoliciesAfter newListIds h1 h2⟩

set_option maxRecDepth 8000 in
/-- Witness for C4: one raw domain and 301 out-of-band remote lists. -/
theorem c4_witness :
    runDecision (["a.com"] : List String).dedup.length
      (cloudflare_get_lists (List.replicate 301 ⟨"i", "x", 0⟩) "P").1
      ((List.replicate 301 (⟨"i", "x", 0⟩ : RemoteList)).length -
        (cloudflare_get_lists (List.replicate 301 ⟨"i", "x", 0⟩) "P").1.length) =
      Plan.quotaAbort
    ∧ runApp "P" ["a.com"] (List.replicate 301 ⟨"i", "x", 0⟩) [] [] [] =
      ([], RunOutcome.stopped) :=
  c4_quota_abort "P" ["a.com"] (List.replicate 301 ⟨"i", "x", 0⟩) [] [] []
    (by decide) (by decide)

/-- C5: whenever the unique-domain count equals the sum of the matched lists'
item counts the run decides `skip` and issues no remote mutation — with no
assumption about the quota condition, because the skip comparison is made
first. -/
theorem c5_skip (pfx : String) (allDomains : List String)
    (allLists : List RemoteList) (rules cfPoliciesAfter : List RemotePolicy)
    (newListIds : List String)
    (h : allDomains.dedup.length = sumCounts (cloudflare_get_lists allLists pfx).1) :
    runDecision allDomains.dedup.length (cloudflare_get_lists allLists pfx).1
      (allLists.length - (cloudflare_get_lists allLists pfx).1.length) = Plan.skip
    ∧ runApp pfx allDomains allLists rules cfPoliciesAfter newListIds =
      ([], RunOutcome.stopped) :=
  ⟨runDecision_skip_eq _ _ _ h,
    runApp_skip_eq pfx allDomains allLists rules cfPoliciesAfter newListIds h⟩

set_option maxRecDepth 8000 in
/-- Witness for C5: an input on which the quota condition also holds
(301 out-of-band lists), showing the skip check takes precedence. -/
theorem c5_witness :
    runDecision (([] : List String)).dedup.length
      (cloudflare_get_lists (List.replicate 301 ⟨"i", "x", 0⟩) "P").1
      ((List.replicate 301 (⟨"i", "x", 0⟩ : RemoteList)).length -
        (cloudflare_get_lists (List.replicate 301 ⟨"i", "x", 0⟩) "P").1.length) =
      Plan.skip
    ∧ runApp "P" [] (List.replicate 301 ⟨"i", "x", 0⟩) [] [] [] =
      ([], RunOutcome.stopped) :=
  c5_skip "P" [] (List.replicate 301 ⟨"i", "x", 0⟩) [] [] [] (by decide)

/-- C6: with two remote policies matching the rule-group prefix, `App.run`
(`main.py`) deletes the first matched policy and never raises the integrity
error, contradicting the claim that the run aborts without deleting; the
repository's own `cloudflare_config.delete_firewall_policy` on the same
state raises the integrity error and issues no delete. -/
theorem c6_main_deletes_despite_multiple_policies :
    1 < (cloudflare_get_firewall_policies
      [⟨"id1", "P one"⟩, ⟨"id2", "P two"⟩] "P").length
    ∧ RemoteAction.deletePolicy "id1" ∈
        (runApp "P" ["a.com"] [] [⟨"id1", "P one"⟩, ⟨"id2", "P two"⟩] [] []).1
    ∧ (runApp "P" ["a.com"] [] [⟨"id1", "P one"⟩, ⟨"id2", "P two"⟩] [] []).2 ≠
        RunOutcome.integrityError
    ∧ cfg_delete_firewall_policy [⟨"id1", "P one"⟩, ⟨"id2", "P two"⟩] "P" =
        ([], Except.error "More than one firewall policy found") := by decide

/-- C7 is false of the code: the join separator is the bare string `or`, so
for ids `["A","B"]` the expression has no space after `or`. -/
theorem c7_counterexample :
    gateway_policy_traffic ["A", "B"] ≠
      "any(dns.domains[*] in $A)or any(dns.domains[*] in $B)"
    ∧ gateway_policy_traffic ["A", "B"] =
      "any(dns.domains[*] in $A)orany(dns.domains[*] in $B)" := by decide

/-- C7 (amended): the per-id terms are joined by the literal separator `or`
with no whitespace at all: for two ids the expression is
`any(dns.domains[*] in $x)orany(dns.domains[*] in $y)`. -/
theorem c7_amended (x y : String) :
    gateway_policy_traffic [x, y] =
      "any(dns.domains[*] in $" ++ x ++ ")" ++ "or" ++
        ("any(dns.domains[*] in $" ++ y ++ ")")
    ∧ gateway_policy_traffic [x] = "any(dns.domains[*] in $" ++ x ++ ")" :=
  ⟨rfl, rfl⟩

/-- C8 is false of the code: the `cloudflare_config`/`cloudflare_api`
variant produces a regex with an empty leading alternative and omits the
`not(...)` wrapper, while the `tld.py`/`cloudflare.py` variant keeps the
wrapper but neither sorts nor deduplicates the TLDs. -/
theorem c8_counterexample :
    api_tld_traffic (cfg_tld_regex ["zip", "mov"]) ≠
      "not(any(dns.domains[*] matches \"[.](mov|zip)$\"))"
    ∧ api_tld_traffic (cfg_tld_regex ["zip", "mov"]) =
      "(any(dns.domains[*] matches \"[.](|mov|zip)$\"))"
    ∧ gateway_policy_tld_traffic (tld_regex ".zip\n.mov\n") ≠
      "not(any(dns.domains[*] matches \"[.](mov|zip)$\"))"
    ∧ gateway_policy_tld_traffic (tld_regex ".zip\n.mov\n") =
      "not(any(dns.domains[*] matches \"[.](zip|mov)$\"))" := by decide

/-- C8 (amended): in the `cloudflare_config`/`cloudflare_api` variant the
expression is `(any(dns.domains[*] matches "[.](|t1|...|tk)$"))` — TLDs
dot-stripped, deduplicated and sorted, but with an empty leading alternative
and no `not(...)`; in the `tld.py`/`cloudflare.py` variant the expression is
`not(any(dns.domains[*] matches "<tld_regex>"))` where `tld_regex` performs
no sorting or deduplication. -/
theorem c8_amended (listIds : List String) (contents : String) :
    api_tld_traffic (cfg_tld_regex listIds) =
      "(any(dns.domains[*] matches \"" ++ cfg_tld_regex listIds ++ "\"))"
    ∧ cfg_tld_regex listIds = "[.](|" ++ strJoin "|" (cfg_unique_tlds listIds) ++ ")$"
    ∧ (cfg_unique_tlds listIds).Pairwise (fun a b => strLe a b = true)
    ∧ (cfg_unique_tlds listIds).Nodup
    ∧ gateway_policy_tld_traffic (tld_regex contents) =
      "not(any(dns.domains[*] matches \"" ++ tld_regex contents ++ "\"))" :=
  ⟨rfl, rfl, cfg_unique_tlds_sorted listIds, cfg_unique_tlds_nodup listIds, rfl⟩

/-- C9 is false of the code: in a batch where the loopback marker triggers
hosts-format detection, the plain-format line `track.example.org` has fewer
than two tokens and is skipped, so it is not extracted. -/
theorem c9_counterexample :
    "track.example.org" ∉
      convert_to_domain_list [] [] "127.0.0.1 ads.example.com\ntrack.example.org"
    ∧ "ads.example.com" ∈
      convert_to_domain_list [] [] "127.0.0.1 ads.example.com\ntrack.example.org" := by
  decide

/-- C9 (amended): hosts-format detection is triggered by the loopback marker
and the extracted set is exactly `{"ads.example.com"}` — the plain-format
line is dropped by the fewer-than-two-tokens rule. -/
theorem c9_amended :
    convert_to_domain_list [] [] "127.0.0.1 ads.example.com\ntrack.example.org" =
      ["ads.example.com"]
    ∧ isHostsFile "127.0.0.1 ads.example.com\ntrack.example.org" = true := by decide

/-- C10: `tld.py` defines neither `create_tld_policy` nor
`delete_tld_policy`; in the full-replace branch the run ends with an
attribute error on `create_tld_policy` raised after the chunked create-list
calls and before any gateway-policy create or update; and loading an empty
TLD file fails the same way on `delete_tld_policy`. -/
theorem c10_run_attr_error (pfx : String) (allDomains : List String)
    (allLists : List RemoteList) (rules cfPoliciesAfter : List RemotePolicy)
    (newListIds : List String)
    (h1 : allDomains.dedup.length ≠ sumCounts (cloudflare_get_lists allLists pfx).1)
    (h2 : ceil_div allDomains.dedup.length 1000 +
      (allLists.length - (cloudflare_get_lists allLists pfx).1.length) ≤ 300) :
    pythonHasAttr tldModuleAttrs "create_tld_policy" = false
    ∧ pythonHasAttr tldModuleAttrs "delete_tld_policy" = false
    ∧ (runApp pfx allDomains allLists rules cfPoliciesAfter newListIds).2 =
        RunOutcome.attrError "create_tld_policy"
    ∧ (∃ pre, (runApp pfx allDomains allLists rules cfPoliciesAfter newListIds).1 =
        pre ++ createChunkActions pfx (chunk_list allDomains.dedup 1000))
    ∧ (∀ a ∈ (runApp pfx allDomains allLists rules cfPoliciesAfter newListIds).1,
        isPolicyWrite a = false)
    ∧ load_tldlist true "" = Except.error "delete_tld_policy" := by
  have he := runApp_fullReplace_eq pfx allDomains allLists rules cfPoliciesAfter
    newListIds h1 h2
  refine ⟨by decide, by decide, ?_, ?_, ?_, by decide⟩
  · rw [he]
  · rw [he]
    exact ⟨_, rfl⟩
  · rw [he]
    intro a ha
    simp only [List.mem_append] at ha
    rcases ha with (ha | ha) | ha
    · rcases hm : cloudflare_get_firewall_policies rules pfx with _ | ⟨p, ps⟩
      · rw [hm] at ha; exact absurd ha (by simp)
      · rw [hm] at ha
        simp only [List.mem_singleton] at ha
        subst ha; rfl
    · obtain ⟨l, _, rfl⟩ := List.mem_map.mp ha; rfl
    · exact createChunkActionsFrom_no_policy_write pfx _ 0 a ha

/-- Witness for C10: one raw domain, no remote lists or policies. -/
theorem c10_witness :
    pythonHasAttr tldModuleAttrs "create_tld_policy" = false
    ∧ pythonHasAttr tldModuleAttrs "delete_tld_policy" = false
    ∧ (runApp "P" ["a.com"] [] [] [] []).2 = RunOutcome.attrError "create_tld_policy"
    ∧ (∃ pre, (runApp "P" ["a.com"] [] [] [] []).1 =
        pre ++ createChunkActions "P" (chunk_list (["a.com"] : List String).dedup 1000))
    ∧ (∀ a ∈ (runApp "P" ["a.com"] [] [] [] []).1, isPolicyWrite a = false)
    ∧ load_tldlist true "" = Except.error "delete_tld_policy" :=
  c10_run_attr_error "P" ["a.com"] [] [] [] [] (by decide) (by decide)

end CFPiHole
